import Mathlib

/-!
Verification of the zatca-mcp invoice codec, builder and validator.

The Python sources are shallowly embedded:
* `decimal.Decimal` values are embedded as exact rationals (`ℚ`); the
  sources only use `+`, `*` and `quantize(..., ROUND_HALF_UP)`, all exact
  at the precisions involved.
* Python strings are embedded as `String` (sequences of Unicode scalar
  values, as in Python 3); where character-level reasoning is needed the
  `List Char` view is used.
* byte strings are embedded as `List Nat` with every element `< 256`.
* functions that raise exceptions are embedded with `Except`.
-/

attribute [local semireducible] Rat.mul Rat.add Rat.inv Rat.sub

/-- `decimal.Decimal.quantize` with `ROUND_HALF_UP` rounds to the nearest
integer, ties away from zero.  `halfUpInt q` is that integer for the scaled
value `q`. -/
def halfUpInt (q : ℚ) : ℤ :=
  if 0 ≤ q then ⌊q + 1/2⌋ else -⌊-q + 1/2⌋

/-- `xml_builder._round_decimal(value, places=2)`:
`value.quantize(Decimal(10) ** -places, rounding=ROUND_HALF_UP)`. -/
def round_decimal (value : ℚ) (places : Nat := 2) : ℚ :=
  (halfUpInt (value * 10 ^ places) : ℚ) / 10 ^ places

/-- The validator rounding used at the BR-11 and BR-14 recomputation sites of
`validation.validate_invoice_xml`:
`(...).quantize(Decimal("0.01"), rounding=ROUND_HALF_UP)`. -/
def quantize01 (x : ℚ) : ℚ :=
  (halfUpInt (x * 100) : ℚ) / 100

/-- `q` is representable with (at most) two decimal places. -/
def Is2dp (q : ℚ) : Prop :=
  ((⌊q * 100⌋ : ℤ) : ℚ) = q * 100

instance (q : ℚ) : Decidable (Is2dp q) := by
  unfold Is2dp; infer_instance

theorem is2dp_def {q : ℚ} (h : Is2dp q) : ∃ n : ℤ, q * 100 = (n : ℚ) :=
  ⟨⌊q * 100⌋, h.symm⟩

theorem is2dp_of_eq_intCast {q : ℚ} {n : ℤ} (h : q * 100 = (n : ℚ)) : Is2dp q := by
  unfold Is2dp
  rw [h, Int.floor_intCast]

theorem is2dp_add {a b : ℚ} (ha : Is2dp a) (hb : Is2dp b) : Is2dp (a + b) := by
  obtain ⟨m, hm⟩ := is2dp_def ha
  obtain ⟨n, hn⟩ := is2dp_def hb
  apply is2dp_of_eq_intCast (n := m + n)
  push_cast
  rw [add_mul, hm, hn]

theorem is2dp_zero : Is2dp 0 := by
  apply is2dp_of_eq_intCast (n := 0)
  norm_num

theorem is2dp_sum {l : List ℚ} (h : ∀ x ∈ l, Is2dp x) : Is2dp l.sum := by
  induction l with
  | nil => simpa using is2dp_zero
  | cons x xs ih =>
    rw [List.sum_cons]
    exact is2dp_add (h x (by simp)) (ih (fun y hy => h y (by simp [hy])))

theorem halfUpInt_intCast (n : ℤ) : halfUpInt (n : ℚ) = n := by
  unfold halfUpInt
  by_cases h : 0 ≤ (n : ℚ)
  · rw [if_pos h]
    rw [show ((n : ℚ) + 1/2 : ℚ) = 1/2 + (n : ℚ) by ring, Int.floor_add_int]
    norm_num
  · rw [if_neg h]
    rw [show (-(n : ℚ) + 1/2 : ℚ) = 1/2 + ((-n : ℤ) : ℚ) by push_cast; ring,
      Int.floor_add_int]
    have h2 : (⌊(1/2 : ℚ)⌋ : ℤ) = 0 := by norm_num
    rw [h2]
    omega

theorem pow_two_ten : ((10 : ℚ) ^ 2) = 100 := by norm_num

theorem round2_eq_self {q : ℚ} (h : Is2dp q) : round_decimal q 2 = q := by
  obtain ⟨n, hn⟩ := is2dp_def h
  unfold round_decimal
  rw [pow_two_ten, hn, halfUpInt_intCast]
  linarith [hn]

theorem is2dp_round2 (q : ℚ) : Is2dp (round_decimal q 2) := by
  apply is2dp_of_eq_intCast (n := halfUpInt (q * 10 ^ 2))
  unfold round_decimal
  rw [pow_two_ten]
  rw [div_mul_cancel₀ _ (by norm_num : (100 : ℚ) ≠ 0)]

/-- The builder rounding and the validator rounding are the same function. -/
theorem round_decimal_eq_quantize01 (x : ℚ) : round_decimal x 2 = quantize01 x := by
  unfold round_decimal quantize01
  rw [pow_two_ten]

/-- C10: `round_decimal` (the builder's `_round_decimal`) rounds
half-away-from-zero at the third decimal, and it is the same rounding as the
validator's BR-11/BR-14 `quantize(Decimal("0.01"), ROUND_HALF_UP)` sites
(`quantize01`): a value whose third decimal digit is exactly 5 has its second
decimal moved away from zero. -/
theorem c10_half_away_from_zero :
    (∀ n : ℤ, n.natAbs % 10 = 5 →
      round_decimal ((n : ℚ) / 1000) 2 =
        ((n : ℚ) + (if 0 ≤ n then 5 else -5)) / 1000) ∧
    (∀ x : ℚ, round_decimal x 2 = quantize01 x) := by
  constructor
  · intro n h
    have h10 : ∃ m : ℤ, n = 10 * m + 5 := ⟨(n - 5) / 10, by omega⟩
    obtain ⟨m, rfl⟩ := h10
    unfold round_decimal halfUpInt
    rw [pow_two_ten]
    rw [show ((10 * m + 5 : ℤ) : ℚ) / 1000 * 100 = (m : ℚ) + 1/2 by push_cast; ring]
    by_cases hm : 0 ≤ (10 * m + 5 : ℤ)
    · have hm0 : (0 : ℤ) ≤ m := by omega
      have hq : (0 : ℚ) ≤ (m : ℚ) + 1/2 := by
        have : (0 : ℚ) ≤ (m : ℚ) := by exact_mod_cast hm0
        linarith
      rw [if_pos hq, if_pos hm]
      rw [show ((m : ℚ) + 1/2 + 1/2 : ℚ) = ((m + 1 : ℤ) : ℚ) by push_cast; ring]
      rw [Int.floor_intCast]
      push_cast
      ring
    · have hm0 : m ≤ (-1 : ℤ) := by omega
      have hq : ¬ (0 : ℚ) ≤ (m : ℚ) + 1/2 := by
        have : (m : ℚ) ≤ -1 := by exact_mod_cast hm0
        linarith
      rw [if_neg hq, if_neg hm]
      rw [show (-((m : ℚ) + 1/2) + 1/2 : ℚ) = ((-m : ℤ) : ℚ) by push_cast; ring]
      rw [Int.floor_intCast]
      push_cast
      ring
  · exact round_decimal_eq_quantize01

theorem c10_half_away_from_zero_witness :
    ((125 : ℤ).natAbs % 10 = 5) ∧
    (round_decimal (((125 : ℤ) : ℚ) / 1000) 2 =
      (((125 : ℤ) : ℚ) + (if (0 : ℤ) ≤ 125 then 5 else -5)) / 1000) ∧
    round_decimal ((125 : ℚ) / 1000) 2 = 13 / 100 :=
  ⟨by decide, c10_half_away_from_zero.1 125 (by decide), by decide⟩

/-- The Unicode code-point ranges of general category `Nd`
(`Numeric_Type=Decimal`): the characters matched by the regex class
`\d` in Python `re` patterns over `str`. -/
def ndRanges : List (Nat × Nat) :=
  [ (0x30, 0x39), (0x660, 0x669), (0x6F0, 0x6F9), (0x7C0, 0x7C9),
    (0x966, 0x96F), (0x9E6, 0x9EF), (0xA66, 0xA6F), (0xAE6, 0xAEF),
    (0xB66, 0xB6F), (0xBE6, 0xBEF), (0xC66, 0xC6F), (0xCE6, 0xCEF),
    (0xD66, 0xD6F), (0xDE6, 0xDEF), (0xE50, 0xE59), (0xED0, 0xED9),
    (0xF20, 0xF29), (0x1040, 0x1049), (0x1090, 0x1099), (0x17E0, 0x17E9),
    (0x1810, 0x1819), (0x1946, 0x194F), (0x19D0, 0x19D9), (0x1A80, 0x1A89),
    (0x1A90, 0x1A99), (0x1B50, 0x1B59), (0x1BB0, 0x1BB9), (0x1C40, 0x1C49),
    (0x1C50, 0x1C59), (0xA620, 0xA629), (0xA8D0, 0xA8D9), (0xA900, 0xA909),
    (0xA9D0, 0xA9D9), (0xA9F0, 0xA9F9), (0xAA50, 0xAA59), (0xABF0, 0xABF9),
    (0xFF10, 0xFF19), (0x104A0, 0x104A9), (0x10D30, 0x10D39),
    (0x11066, 0x1106F), (0x110F0, 0x110F9), (0x11136, 0x1113F),
    (0x111D0, 0x111D9), (0x112F0, 0x112F9), (0x11450, 0x11459),
    (0x114D0, 0x114D9), (0x11650, 0x11659), (0x116C0, 0x116C9),
    (0x11730, 0x11739), (0x118E0, 0x118E9), (0x11950, 0x11959),
    (0x11C50, 0x11C59), (0x11D50, 0x11D59), (0x11DA0, 0x11DA9),
    (0x16A60, 0x16A69), (0x16AC0, 0x16AC9), (0x16B50, 0x16B59),
    (0x1D7CE, 0x1D7FF), (0x1E140, 0x1E149), (0x1E2F0, 0x1E2F9),
    (0x1E4F0, 0x1E4F9), (0x1E950, 0x1E959), (0x1FBF0, 0x1FBF9) ]

/-- The code points with `Numeric_Type=Digit` (superscripts, circled
digits, etc.), accepted by `str.isdigit` in addition to category `Nd`. -/
def digitTypeRanges : List (Nat × Nat) :=
  [ (0xB2, 0xB3), (0xB9, 0xB9), (0x1369, 0x1371), (0x2070, 0x2070),
    (0x2074, 0x2079), (0x2080, 0x2089), (0x2460, 0x2468), (0x2474, 0x247C),
    (0x2488, 0x2490), (0x24EA, 0x24EA), (0x24F5, 0x24FD), (0x24FF, 0x24FF),
    (0x2776, 0x277E), (0x2780, 0x2788), (0x278A, 0x2792),
    (0x10A40, 0x10A43), (0x1F100, 0x1F10A) ]

/-- The ranges accepted by the builtin `str.isdigit` used at
`validation.validate_vat_number` line 40: `Numeric_Type` `Decimal` or
`Digit`. -/
def pyDigitRanges : List (Nat × Nat) := ndRanges ++ digitTypeRanges

/-- Python `str.isdigit` on a single character. -/
def pyIsDigit (c : Char) : Bool :=
  pyDigitRanges.any (fun r => decide (r.1 ≤ c.toNat ∧ c.toNat ≤ r.2))

/-- The character class `\d` of Python `re` over `str`: category `Nd`. -/
def pyIsDecimalDigit (c : Char) : Bool :=
  ndRanges.any (fun r => decide (r.1 ≤ c.toNat ∧ c.toNat ≤ r.2))

/-- `validation.validate_vat_number` (lines 32-46), on the code-point
sequence of the argument.  Python truthiness of a string is non-emptiness;
`startswith "3"` / `endswith "3"` test the first / last character. -/
def validate_vat_number (vat : List Char) : List String :=
  if vat = [] then ["VAT number is required"]
  else
    (if vat.length ≠ 15 then
      ["VAT number must be 15 digits, got " ++ toString vat.length] else []) ++
    (if ¬ (vat.all pyIsDigit = true) then
      ["VAT number must contain only digits"] else []) ++
    (if ¬ (vat.head? = some ('3' : Char)) then
      ["VAT number must start with 3"] else []) ++
    (if ¬ (vat.getLast? = some ('3' : Char)) then
      ["VAT number must end with 3"] else [])

/-- C4 (counterexample): the claim requires `validate_vat_number` to return
no violation only for strings of ASCII digits, but Python `str.isdigit`
also accepts other Unicode digits: a 15-character string of U+0663
(ARABIC-INDIC DIGIT THREE) surrounded by ASCII threes yields no violation
while failing the ASCII-digit test (`Char.isDigit`). -/
theorem c4_ascii_digit_counterexample :
    validate_vat_number
      (('3' : Char) :: (List.replicate 13 (Char.ofNat 0x663) ++ [('3' : Char)])) = []
    ∧ (('3' : Char) :: (List.replicate 13 (Char.ofNat 0x663) ++ [('3' : Char)])).all
        Char.isDigit = false := by
  constructor
  · decide
  · decide

/-- C4 (amended): `validate_vat_number` returns no violation iff the string
is non-empty, exactly 15 characters, every character satisfies Python
`str.isdigit` (Unicode decimal digits and digit-type characters, a superset
of the ASCII digits), and the first and last characters are the ASCII
character 3; moreover each violated clause contributes its own message and
all applicable violations are reported together (a non-empty string that
fails both the length and the digits-only clause reports both messages). -/
theorem c4_vat_rule :
    (∀ vat : List Char,
      validate_vat_number vat = [] ↔
        (vat ≠ [] ∧ vat.length = 15 ∧ vat.all pyIsDigit = true ∧
          vat.head? = some ('3' : Char) ∧ vat.getLast? = some ('3' : Char))) ∧
    (∀ vat : List Char, vat ≠ [] → vat.length ≠ 15 → vat.all pyIsDigit = false →
      ("VAT number must be 15 digits, got " ++ toString vat.length)
          ∈ validate_vat_number vat ∧
      "VAT number must contain only digits" ∈ validate_vat_number vat) := by
  constructor
  · intro vat
    unfold validate_vat_number
    by_cases h0 : vat = []
    · simp [h0]
    · rw [if_neg h0]
      constructor
      · intro h
        simp only [List.append_eq_nil] at h
        obtain ⟨⟨⟨h1, h2⟩, h3⟩, h4⟩ := h
        refine ⟨h0, ?_, ?_, ?_, ?_⟩
        · by_contra hl
          simp [hl] at h1
        · by_contra hd
          simp [hd] at h2
        · by_contra hh
          simp [hh] at h3
        · by_contra ht
          simp [ht] at h4
      · rintro ⟨-, hl, hd, hh, ht⟩
        rw [if_neg (by simp [hl]), if_neg (by simp [hd]), if_neg (by simp [hh]),
          if_neg (by simp [ht])]
        rfl
  · intro vat h0 hl hd
    unfold validate_vat_number
    rw [if_neg h0, if_pos hl, if_pos (by simp [hd])]
    constructor
    · simp
    · simp

theorem c4_vat_rule_witness :
    (validate_vat_number (String.toList ("300000000000003")) = []) ∧
    (("VAT number must be 15 digits, got " ++
        toString (String.toList ("abc")).length)
      ∈ validate_vat_number (String.toList ("abc"))) :=
  ⟨(c4_vat_rule.1 (String.toList ("300000000000003"))).mpr (by decide),
   (c4_vat_rule.2 (String.toList ("abc")) (by decide) (by decide) (by decide)).1⟩

/-- Errors raised by `tlv.py`: `ValueError` from `TLVTag.encode`
(value too long / invalid tag), `ValueError` from `decode_tlv`
(truncated data / length mismatch), and `binascii.Error` from
`base64.b64decode`. -/
inductive TLVError where
  | valueTooLong (tag len : Nat)
  | invalidTag (tag : Nat)
  | truncated (pos : Nat)
  | lengthMismatch (tag len remaining : Nat)
  | badBase64
  deriving DecidableEq

/-- `tlv.TLVTag.encode` (lines 39-48): the value is already given as its
UTF-8 byte sequence.  Emits `bytes([tag, len(value_bytes)]) + value_bytes`
after the two `ValueError` guards, in source order (length first). -/
def tlvTagEncode (tag : Nat) (value : List Nat) : Except TLVError (List Nat) :=
  if value.length > 255 then .error (.valueTooLong tag value.length)
  else if tag < 1 ∨ tag > 9 then .error (.invalidTag tag)
  else .ok (tag :: value.length :: value)

/-- The arguments of `tlv.encode_tlv`; each value stands for the UTF-8
encoding of the corresponding Python string. -/
structure QRFields where
  seller_name : List Nat
  vat_number : List Nat
  timestamp : List Nat
  total_amount : List Nat
  vat_amount : List Nat
  invoice_hash : Option (List Nat) := none
  ecdsa_signature : Option (List Nat) := none
  ecdsa_public_key : Option (List Nat) := none

/-- The `tags` list built by `tlv.encode_tlv` (lines 78-91): tags 1-5
always, then 6, 7, 8 each included only when the optional field is given. -/
def tlvSegs (f : QRFields) : List (Nat × List Nat) :=
  [(1, f.seller_name), (2, f.vat_number), (3, f.timestamp),
   (4, f.total_amount), (5, f.vat_amount)] ++
  (match f.invoice_hash with | some h => [(6, h)] | none => []) ++
  (match f.ecdsa_signature with | some s => [(7, s)] | none => []) ++
  (match f.ecdsa_public_key with | some k => [(8, k)] | none => [])

/-- The standard base64 alphabet used by `base64.b64encode`. -/
def b64Alphabet : List Char :=
  String.toList ("ABCDEFGHIJKLMNOPQRSTUVWXYZabcdefghijklmnopqrstuvwxyz0123456789+/")

def sextetChar (n : Nat) : Char := b64Alphabet.getD n ('?' : Char)

def charSextet (c : Char) : Option Nat := b64Alphabet.findIdx? (fun a => a = c)

/-- `base64.b64encode` on a byte list (standard alphabet, `=` padding,
no line wrapping): each 3-byte group becomes four sextet characters. -/
def b64encodeBytes : List Nat → List Char
  | [] => []
  | [a] =>
    let n := a * 65536
    [sextetChar (n / 262144), sextetChar (n / 4096 % 64), ('=' : Char), ('=' : Char)]
  | [a, b] =>
    let n := a * 65536 + b * 256
    [sextetChar (n / 262144), sextetChar (n / 4096 % 64), sextetChar (n / 64 % 64),
     ('=' : Char)]
  | a :: b :: c :: rest =>
    let n := a * 65536 + b * 256 + c
    sextetChar (n / 262144) :: sextetChar (n / 4096 % 64) :: sextetChar (n / 64 % 64) ::
      sextetChar (n % 64) :: b64encodeBytes rest

/-- `base64.b64decode` on the character list of a base64 string: groups of
four characters, the last group possibly padded with one or two `=`. -/
def b64decodeChars : List Char → Except TLVError (List Nat)
  | [] => .ok []
  | c0 :: c1 :: c2 :: c3 :: rest =>
    (match charSextet c0, charSextet c1 with
    | some s0, some s1 =>
      if c2 = ('=' : Char) ∧ c3 = ('=' : Char) ∧ rest = [] then
        .ok [s0 * 4 + s1 / 16]
      else
        match charSextet c2 with
        | some s2 =>
          if c3 = ('=' : Char) ∧ rest = [] then
            .ok [s0 * 4 + s1 / 16, s1 % 16 * 16 + s2 / 4]
          else
            match charSextet c3 with
            | some s3 =>
              match b64decodeChars rest with
              | .ok tail =>
                .ok ((s0 * 4 + s1 / 16) :: (s1 % 16 * 16 + s2 / 4) ::
                  (s2 % 4 * 64 + s3) :: tail)
              | .error e => .error e
            | none => .error .badBase64
        | none => .error .badBase64
    | _, _ => .error .badBase64)
  | _ => .error .badBase64

/-- A Python dict assignment `result[tag] = value`: an existing key keeps
its position and gets the new value, a fresh key is appended at the end. -/
def dictInsert : List (Nat × List Nat) → Nat → List Nat → List (Nat × List Nat)
  | [], t, v => [(t, v)]
  | (k, w) :: rest, t, v =>
    if k = t then (k, v) :: rest else (k, w) :: dictInsert rest t v

/-- The scanning while-loop of `tlv.decode_tlv` (lines 108-123), operating
on the bytes that remain from position `pos`: exit when no byte remains,
`ValueError` (truncated) when exactly one byte remains where a tag/length
header is expected, `ValueError` (length mismatch) when the declared length
exceeds the remaining bytes, otherwise store the segment in the result dict
and continue right after the value bytes. -/
def decodeLoop : Nat → List Nat → List (Nat × List Nat) →
    Except TLVError (List (Nat × List Nat))
  | _, [], acc => .ok acc
  | pos, [_], _ => .error (.truncated pos)
  | pos, t :: l :: rest, acc =>
    if l ≤ rest.length then
      decodeLoop (pos + 2 + l) (rest.drop l) (dictInsert acc t (rest.take l))
    else .error (.lengthMismatch t l rest.length)
termination_by _ data _ => data.length
decreasing_by simp [List.length_drop]; omega

/-- `tlv.encode_tlv` (lines 51-94): encode every tag, join the chunks and
base64-encode the result. -/
def encode_tlv (f : QRFields) : Except TLVError (List Char) :=
  match (tlvSegs f).mapM (fun s => tlvTagEncode s.1 s.2) with
  | .error e => .error e
  | .ok chunks => .ok (b64encodeBytes chunks.flatten)

/-- `tlv.decode_tlv` (lines 97-123): base64-decode, then scan. -/
def decode_tlv (s : List Char) : Except TLVError (List (Nat × List Nat)) :=
  match b64decodeChars s with
  | .error e => .error e
  | .ok data => decodeLoop 0 data []

/-- `data` is a well-formed byte payload: a concatenation of
tag/length/value segments, the listed segments in order. -/
inductive SegsOf : List Nat → List (Nat × List Nat) → Prop where
  | nil : SegsOf [] []
  | cons (t : Nat) (v rest : List Nat) (segs : List (Nat × List Nat))
      (ht : t < 256) (hv : v.length ≤ 255) (hb : ∀ x ∈ v, x < 256)
      (h : SegsOf rest segs) :
      SegsOf (t :: v.length :: (v ++ rest)) ((t, v) :: segs)

theorem charSextet_sextetChar {s : Nat} (h : s < 64) :
    charSextet (sextetChar s) = some s := by
  have H : ∀ t < 64, charSextet (sextetChar t) = some t := by decide
  exact H s h

theorem sextetChar_ne_pad {s : Nat} (h : s < 64) : ¬ sextetChar s = ('=' : Char) := by
  have H : ∀ t < 64, ¬ sextetChar t = ('=' : Char) := by decide
  exact H s h

theorem b64_roundtrip_aux (n : Nat) : ∀ bs : List Nat, bs.length ≤ n →
    (∀ x ∈ bs, x < 256) → b64decodeChars (b64encodeBytes bs) = .ok bs := by
  induction n with
  | zero =>
    intro bs hlen _
    match bs with
    | [] => rfl
    | x :: xs => simp at hlen
  | succ n ih =>
    intro bs hlen hb
    match bs with
    | [] => rfl
    | [a] =>
      have ha : a < 256 := hb a (by simp)
      have h0 : a * 65536 / 262144 < 64 := by omega
      have h1 : a * 65536 / 4096 % 64 < 64 := by omega
      have henc : b64encodeBytes [a] =
          [sextetChar (a * 65536 / 262144), sextetChar (a * 65536 / 4096 % 64),
           ('=' : Char), ('=' : Char)] := rfl
      rw [henc]
      simp only [b64decodeChars, charSextet_sextetChar h0, charSextet_sextetChar h1]
      have : a * 65536 / 262144 * 4 + a * 65536 / 4096 % 64 / 16 = a := by omega
      simp [this]
    | [a, b] =>
      have ha : a < 256 := hb a (by simp)
      have hbb : b < 256 := hb b (by simp)
      have h0 : (a * 65536 + b * 256) / 262144 < 64 := by omega
      have h1 : (a * 65536 + b * 256) / 4096 % 64 < 64 := by omega
      have h2 : (a * 65536 + b * 256) / 64 % 64 < 64 := by omega
      have henc : b64encodeBytes [a, b] =
          [sextetChar ((a * 65536 + b * 256) / 262144),
           sextetChar ((a * 65536 + b * 256) / 4096 % 64),
           sextetChar ((a * 65536 + b * 256) / 64 % 64), ('=' : Char)] := rfl
      rw [henc]
      simp only [b64decodeChars, charSextet_sextetChar h0, charSextet_sextetChar h1]
      rw [if_neg (by
        intro hcon
        exact sextetChar_ne_pad h2 hcon.1)]
      simp only [charSextet_sextetChar h2]
      have e1 : (a * 65536 + b * 256) / 262144 * 4 +
          (a * 65536 + b * 256) / 4096 % 64 / 16 = a := by omega
      have e2 : (a * 65536 + b * 256) / 4096 % 64 % 16 * 16 +
          (a * 65536 + b * 256) / 64 % 64 / 4 = b := by omega
      simp [e1, e2]
    | a :: b :: c :: rest =>
      have ha : a < 256 := hb a (by simp)
      have hbb : b < 256 := hb b (by simp)
      have hc : c < 256 := hb c (by simp)
      have h0 : (a * 65536 + b * 256 + c) / 262144 < 64 := by omega
      have h1 : (a * 65536 + b * 256 + c) / 4096 % 64 < 64 := by omega
      have h2 : (a * 65536 + b * 256 + c) / 64 % 64 < 64 := by omega
      have h3 : (a * 65536 + b * 256 + c) % 64 < 64 := by omega
      have henc : b64encodeBytes (a :: b :: c :: rest) =
          sextetChar ((a * 65536 + b * 256 + c) / 262144) ::
          sextetChar ((a * 65536 + b * 256 + c) / 4096 % 64) ::
          sextetChar ((a * 65536 + b * 256 + c) / 64 % 64) ::
          sextetChar ((a * 65536 + b * 256 + c) % 64) :: b64encodeBytes rest := rfl
      rw [henc]
      simp only [b64decodeChars, charSextet_sextetChar h0, charSextet_sextetChar h1]
      rw [if_neg (by
        intro hcon
        exact sextetChar_ne_pad h2 hcon.1)]
      simp only [charSextet_sextetChar h2]
      rw [if_neg (by
        intro hcon
        exact sextetChar_ne_pad h3 hcon.1)]
      simp only [charSextet_sextetChar h3]
      have hrest := ih rest (by simp at hlen; omega)
        (fun x hx => hb x (by simp [hx]))
      rw [hrest]
      have e1 : (a * 65536 + b * 256 + c) / 262144 * 4 +
          (a * 65536 + b * 256 + c) / 4096 % 64 / 16 = a := by omega
      have e2 : (a * 65536 + b * 256 + c) / 4096 % 64 % 16 * 16 +
          (a * 65536 + b * 256 + c) / 64 % 64 / 4 = b := by omega
      have e3 : (a * 65536 + b * 256 + c) / 64 % 64 % 4 * 64 +
          (a * 65536 + b * 256 + c) % 64 = c := by omega
      rw [e1, e2, e3]

theorem b64_roundtrip {bs : List Nat} (hb : ∀ x ∈ bs, x < 256) :
    b64decodeChars (b64encodeBytes bs) = .ok bs :=
  b64_roundtrip_aux bs.length bs (le_refl _) hb

theorem decodeLoop_ok {data : List Nat} {segs : List (Nat × List Nat)}
    (h : SegsOf data segs) : ∀ pos acc,
    decodeLoop pos data acc =
      .ok (segs.foldl (fun m s => dictInsert m s.1 s.2) acc) := by
  induction h with
  | nil =>
    intro pos acc
    rw [decodeLoop]
    rfl
  | cons t v rest segs ht hv hb hrec ih =>
    intro pos acc
    rw [decodeLoop]
    rw [if_pos (by simp : v.length ≤ (v ++ rest).length)]
    rw [List.drop_left, List.take_left]
    rw [ih (pos + 2 + v.length) (dictInsert acc t v)]
    rfl

theorem decodeLoop_truncated (pos b : Nat) (acc : List (Nat × List Nat)) :
    decodeLoop pos [b] acc = .error (.truncated pos) := by
  rw [decodeLoop]

theorem decodeLoop_mismatch (pos t l : Nat) (rest : List Nat)
    (acc : List (Nat × List Nat)) (h : rest.length < l) :
    decodeLoop pos (t :: l :: rest) acc =
      .error (.lengthMismatch t l rest.length) := by
  rw [decodeLoop]
  rw [if_neg (by omega)]

/-- C8: byte-level behaviour of the `decode_tlv` scanning loop: a single
remaining byte where a tag/length header is expected is a truncation error
(so a 1-byte payload fails), a declared length exceeding the remaining
bytes is a length-mismatch error, and every well-formed
tag/length/value concatenation decodes left to right into the result
dict with no bytes skipped. -/
theorem c8_decode_errors :
    (∀ pos b : Nat, ∀ acc : List (Nat × List Nat),
      decodeLoop pos [b] acc = .error (.truncated pos)) ∧
    (∀ pos t l : Nat, ∀ rest : List Nat, ∀ acc : List (Nat × List Nat),
      rest.length < l →
      decodeLoop pos (t :: l :: rest) acc =
        .error (.lengthMismatch t l rest.length)) ∧
    (∀ data : List Nat, ∀ segs : List (Nat × List Nat), SegsOf data segs →
      ∀ pos acc, decodeLoop pos data acc =
        .ok (segs.foldl (fun m s => dictInsert m s.1 s.2) acc)) :=
  ⟨decodeLoop_truncated,
   fun pos t l rest acc h => decodeLoop_mismatch pos t l rest acc h,
   fun _ _ h => decodeLoop_ok h⟩

theorem c8_decode_errors_witness :
    decodeLoop 0 [1] [] = .error (.truncated 0) ∧
    (([97, 98, 99] : List Nat).length < 10 ∧
      decodeLoop 0 (1 :: 10 :: [97, 98, 99]) [] =
        .error (.lengthMismatch 1 10 ([97, 98, 99] : List Nat).length)) ∧
    (SegsOf [1, 2, 97, 98, 5, 0] [(1, [97, 98]), (5, [])] ∧
      decodeLoop 0 [1, 2, 97, 98, 5, 0] [] =
        .ok ([(1, [97, 98]), (5, [])].foldl
          (fun m s => dictInsert m s.1 s.2) [])) := by
  have hseg : SegsOf [1, 2, 97, 98, 5, 0] [(1, [97, 98]), (5, [])] := by
    have h2 : SegsOf [] [] := SegsOf.nil
    have h1 : SegsOf (5 :: ([] : List Nat).length :: (([] : List Nat) ++ [])) [(5, [])] :=
      SegsOf.cons 5 [] [] [] (by omega) (by simp) (by simp) h2
    have h1x : SegsOf [5, 0] [(5, [])] := by simpa using h1
    have h0 : SegsOf (1 :: ([97, 98] : List Nat).length :: (([97, 98] : List Nat) ++ [5, 0]))
        [(1, [97, 98]), (5, [])] :=
      SegsOf.cons 1 [97, 98] [5, 0] [(5, [])] (by omega) (by simp) (by decide) h1x
    simpa using h0
  exact ⟨c8_decode_errors.1 0 1 [],
    ⟨by decide, c8_decode_errors.2.1 0 1 10 [97, 98, 99] [] (by decide)⟩,
    ⟨hseg, c8_decode_errors.2.2 _ _ hseg 0 []⟩⟩

/-- C9: `TLVTag.encode` for a tag in 1..9: a 255-byte value encodes as
tag byte, length byte, value bytes; a 256-byte value raises the
too-long `ValueError`; the empty value encodes as the two bytes
tag, 0. -/
theorem c9_tag_boundaries (tag : Nat) (h1 : 1 ≤ tag) (h9 : tag ≤ 9) :
    (∀ v : List Nat, v.length = 255 → tlvTagEncode tag v = .ok (tag :: 255 :: v)) ∧
    (∀ v : List Nat, v.length = 256 →
      tlvTagEncode tag v = .error (.valueTooLong tag 256)) ∧
    tlvTagEncode tag [] = .ok [tag, 0] := by
  refine ⟨?_, ?_, ?_⟩
  · intro v hv
    unfold tlvTagEncode
    rw [if_neg (by omega), if_neg (by omega), hv]
  · intro v hv
    unfold tlvTagEncode
    rw [hv, if_pos (by omega)]
  · unfold tlvTagEncode
    rw [if_neg (by simp), if_neg (by omega)]
    rfl

theorem c9_tag_boundaries_witness :
    tlvTagEncode 1 (List.replicate 255 0) = .ok (1 :: 255 :: List.replicate 255 0) ∧
    tlvTagEncode 1 (List.replicate 256 0) = .error (.valueTooLong 1 256) ∧
    tlvTagEncode 1 [] = .ok [1, 0] := by
  have h := c9_tag_boundaries 1 (by decide) (by decide)
  exact ⟨h.1 (List.replicate 255 0) (by rw [List.length_replicate]),
    h.2.1 (List.replicate 256 0) (by rw [List.length_replicate]), h.2.2⟩

theorem dictInsert_fresh {acc : List (Nat × List Nat)} {t : Nat}
    (h : ∀ p ∈ acc, p.1 ≠ t) (v : List Nat) :
    dictInsert acc t v = acc ++ [(t, v)] := by
  induction acc with
  | nil => rfl
  | cons p rest ih =>
    obtain ⟨k, w⟩ := p
    unfold dictInsert
    rw [if_neg (h (k, w) (by simp))]
    rw [ih (fun q hq => h q (by simp [hq]))]
    simp

theorem foldl_dictInsert_fresh :
    ∀ (segs : List (Nat × List Nat)) (acc : List (Nat × List Nat)),
    (segs.map Prod.fst).Nodup →
    (∀ p ∈ segs, ∀ q ∈ acc, q.1 ≠ p.1) →
    segs.foldl (fun m s => dictInsert m s.1 s.2) acc = acc ++ segs := by
  intro segs
  induction segs with
  | nil => intro acc _ _; simp
  | cons s rest ih =>
    intro acc hnd hfresh
    obtain ⟨t, v⟩ := s
    rw [List.foldl_cons]
    have hins : dictInsert acc t v = acc ++ [(t, v)] :=
      dictInsert_fresh (fun q hq => hfresh (t, v) (by simp) q hq) v
    rw [hins]
    have hnd' : (t :: rest.map Prod.fst).Nodup := by
      simpa only [List.map_cons] using hnd
    have hndt : t ∉ rest.map Prod.fst := (List.nodup_cons.mp hnd').1
    have hndr : (rest.map Prod.fst).Nodup := (List.nodup_cons.mp hnd').2
    rw [ih (acc ++ [(t, v)]) hndr ?_]
    · simp
    · intro p hp q hq
      rcases List.mem_append.mp hq with hq | hq
      · exact hfresh p (by simp [hp]) q hq
      · simp at hq
        subst hq
        intro hcon
        exact hndt (List.mem_map.mpr ⟨p, hp, hcon.symm⟩)

theorem mapM_tlvTagEncode {segs : List (Nat × List Nat)}
    (h : ∀ s ∈ segs, 1 ≤ s.1 ∧ s.1 ≤ 9 ∧ s.2.length ≤ 255) :
    segs.mapM (fun s => tlvTagEncode s.1 s.2) =
      .ok (segs.map (fun s => s.1 :: s.2.length :: s.2)) := by
  induction segs with
  | nil => rfl
  | cons s rest ih =>
    obtain ⟨hs1, hs9, hsl⟩ := h s (by simp)
    have henc : tlvTagEncode s.1 s.2 = .ok (s.1 :: s.2.length :: s.2) := by
      unfold tlvTagEncode
      rw [if_neg (by omega), if_neg (by omega)]
    rw [List.mapM_cons, henc, ih (fun x hx => h x (by simp [hx]))]
    rfl

theorem segsOf_flatten {segs : List (Nat × List Nat)}
    (h : ∀ s ∈ segs, s.1 < 256 ∧ s.2.length ≤ 255 ∧ ∀ x ∈ s.2, x < 256) :
    SegsOf ((segs.map (fun s => s.1 :: s.2.length :: s.2)).flatten) segs := by
  induction segs with
  | nil => exact SegsOf.nil
  | cons s rest ih =>
    obtain ⟨t, v⟩ := s
    obtain ⟨ht, hv, hb⟩ := h (t, v) (by simp)
    have hrest := ih (fun x hx => h x (by simp [hx]))
    simpa using SegsOf.cons t v _ rest ht hv hb hrest

theorem flatten_bytes_lt {segs : List (Nat × List Nat)}
    (h : ∀ s ∈ segs, s.1 < 256 ∧ s.2.length ≤ 255 ∧ ∀ x ∈ s.2, x < 256) :
    ∀ x ∈ (segs.map (fun s => s.1 :: s.2.length :: s.2)).flatten, x < 256 := by
  induction segs with
  | nil => simp
  | cons s rest ih =>
    obtain ⟨t, v⟩ := s
    obtain ⟨ht, hv, hb⟩ := h (t, v) (by simp)
    replace hv : v.length ≤ 255 := hv
    intro x hx
    simp only [List.map_cons, List.flatten_cons, List.mem_append, List.mem_cons] at hx
    rcases hx with (rfl | rfl | hx) | hx
    · exact ht
    · omega
    · exact hb x hx
    · exact ih (fun y hy => h y (by simp [hy])) x hx

/-- A value (already UTF-8 encoded) fitting one TLV segment: at most 255
bytes, every element a byte. -/
def WFValue (v : List Nat) : Prop := v.length ≤ 255 ∧ ∀ x ∈ v, x < 256

def WFOpt : Option (List Nat) → Prop
  | none => True
  | some v => WFValue v

def WFFields (f : QRFields) : Prop :=
  WFValue f.seller_name ∧ WFValue f.vat_number ∧ WFValue f.timestamp ∧
  WFValue f.total_amount ∧ WFValue f.vat_amount ∧
  WFOpt f.invoice_hash ∧ WFOpt f.ecdsa_signature ∧ WFOpt f.ecdsa_public_key

instance (v : List Nat) : Decidable (WFValue v) := by
  unfold WFValue; infer_instance

instance (o : Option (List Nat)) : Decidable (WFOpt o) := by
  cases o with
  | none => exact .isTrue trivial
  | some v => exact (inferInstance : Decidable (WFValue v))

instance (f : QRFields) : Decidable (WFFields f) := by
  unfold WFFields; infer_instance

theorem mem_tlvSegs {f : QRFields} {s : Nat × List Nat} (hs : s ∈ tlvSegs f) :
    s = (1, f.seller_name) ∨ s = (2, f.vat_number) ∨ s = (3, f.timestamp) ∨
    s = (4, f.total_amount) ∨ s = (5, f.vat_amount) ∨
    (∃ v, f.invoice_hash = some v ∧ s = (6, v)) ∨
    (∃ v, f.ecdsa_signature = some v ∧ s = (7, v)) ∨
    (∃ v, f.ecdsa_public_key = some v ∧ s = (8, v)) := by
  unfold tlvSegs at hs
  simp only [List.mem_append, List.mem_cons, List.not_mem_nil, or_false] at hs
  rcases hs with ((hA | hB) | hC) | hD
  · tauto
  · cases hoih : f.invoice_hash with
    | none => rw [hoih] at hB; simp at hB
    | some v =>
      rw [hoih] at hB
      simp at hB
      subst hB
      exact Or.inr (Or.inr (Or.inr (Or.inr (Or.inr (Or.inl ⟨v, rfl, rfl⟩)))))
  · cases hoes : f.ecdsa_signature with
    | none => rw [hoes] at hC; simp at hC
    | some v =>
      rw [hoes] at hC
      simp at hC
      subst hC
      exact Or.inr (Or.inr (Or.inr (Or.inr (Or.inr (Or.inr (Or.inl ⟨v, rfl, rfl⟩))))))
  · cases hoek : f.ecdsa_public_key with
    | none => rw [hoek] at hD; simp at hD
    | some v =>
      rw [hoek] at hD
      simp at hD
      subst hD
      exact Or.inr (Or.inr (Or.inr (Or.inr (Or.inr (Or.inr (Or.inr ⟨v, rfl, rfl⟩))))))

theorem tlvSegs_wf {f : QRFields} (h : WFFields f) :
    ∀ s ∈ tlvSegs f, (1 ≤ s.1 ∧ s.1 ≤ 9 ∧ s.2.length ≤ 255) ∧
      (s.1 < 256 ∧ s.2.length ≤ 255 ∧ ∀ x ∈ s.2, x < 256) := by
  obtain ⟨h1, h2, h3, h4, h5, h6, h7, h8⟩ := h
  intro s hs
  rcases mem_tlvSegs hs with rfl | rfl | rfl | rfl | rfl | ⟨v, hv, rfl⟩ |
    ⟨v, hv, rfl⟩ | ⟨v, hv, rfl⟩
  · exact ⟨⟨by omega, by omega, h1.1⟩, by omega, h1.1, h1.2⟩
  · exact ⟨⟨by omega, by omega, h2.1⟩, by omega, h2.1, h2.2⟩
  · exact ⟨⟨by omega, by omega, h3.1⟩, by omega, h3.1, h3.2⟩
  · exact ⟨⟨by omega, by omega, h4.1⟩, by omega, h4.1, h4.2⟩
  · exact ⟨⟨by omega, by omega, h5.1⟩, by omega, h5.1, h5.2⟩
  · rw [hv] at h6
    exact ⟨⟨by omega, by omega, h6.1⟩, by omega, h6.1, h6.2⟩
  · rw [hv] at h7
    exact ⟨⟨by omega, by omega, h7.1⟩, by omega, h7.1, h7.2⟩
  · rw [hv] at h8
    exact ⟨⟨by omega, by omega, h8.1⟩, by omega, h8.1, h8.2⟩

theorem tlvSegs_keys_nodup (f : QRFields) : ((tlvSegs f).map Prod.fst).Nodup := by
  obtain ⟨sn, vn, ts, ta, va, oih, oes, oek⟩ := f
  cases oih <;> cases oes <;> cases oek <;> simp [tlvSegs]

/-- C6: for well-formed fields (every value at most 255 UTF-8 bytes,
including multi-byte Arabic text), decoding the encoded QR payload returns
exactly the tag-to-value association of the supplied fields: tags 1-5
always, tags 6-8 present iff the optional field was supplied. -/
theorem c6_tlv_roundtrip (f : QRFields) (h : WFFields f) :
    (encode_tlv f >>= decode_tlv) = Except.ok (tlvSegs f) := by
  have hwf := tlvSegs_wf h
  have henc : (tlvSegs f).mapM (fun s => tlvTagEncode s.1 s.2) =
      .ok ((tlvSegs f).map (fun s => s.1 :: s.2.length :: s.2)) :=
    mapM_tlvTagEncode (fun s hs => (hwf s hs).1)
  have hbytes : ∀ x ∈ ((tlvSegs f).map
      (fun s => s.1 :: s.2.length :: s.2)).flatten, x < 256 :=
    flatten_bytes_lt (fun s hs => (hwf s hs).2)
  unfold encode_tlv
  rw [henc]
  show decode_tlv (b64encodeBytes _) = _
  unfold decode_tlv
  rw [b64_roundtrip hbytes]
  show decodeLoop 0 ((tlvSegs f).map (fun s => s.1 :: s.2.length :: s.2)).flatten [] = _
  rw [decodeLoop_ok (segsOf_flatten (fun s hs => (hwf s hs).2)) 0 []]
  rw [foldl_dictInsert_fresh (tlvSegs f) [] (tlvSegs_keys_nodup f) (by simp)]
  simp

theorem c6_tlv_roundtrip_witness :
    (encode_tlv
      { seller_name := [216, 180, 216, 177, 217, 131, 216, 169],
        vat_number := [51, 48, 48, 48, 48, 48, 48, 48, 48, 48, 48, 48, 48, 48, 51],
        timestamp := [50, 48, 50, 52, 45, 48, 49, 45, 49, 53],
        total_amount := [49, 49, 53, 48, 46, 48, 48],
        vat_amount := [49, 53, 48, 46, 48, 48],
        invoice_hash := some [97, 98, 99],
        ecdsa_signature := none,
        ecdsa_public_key := none } >>= decode_tlv) =
    Except.ok (tlvSegs
      { seller_name := [216, 180, 216, 177, 217, 131, 216, 169],
        vat_number := [51, 48, 48, 48, 48, 48, 48, 48, 48, 48, 48, 48, 48, 48, 51],
        timestamp := [50, 48, 50, 52, 45, 48, 49, 45, 49, 53],
        total_amount := [49, 49, 53, 48, 46, 48, 48],
        vat_amount := [49, 53, 48, 46, 48, 48],
        invoice_hash := some [97, 98, 99],
        ecdsa_signature := none,
        ecdsa_public_key := none }) :=
  c6_tlv_roundtrip _ (by decide)

/-- A parsed line-item dict as accepted by `build_invoice_xml`:
`name`, `quantity`, `unit_price` mandatory, `vat_rate` (default 0.15) and
`vat_category` (default S) via `dict.get`.  Numeric values stand for the
exact `Decimal(str(...))` value. -/
structure LineItem where
  name : String
  quantity : ℚ
  unit_price : ℚ
  vat_rate : Option ℚ := none
  vat_category : Option String := none
  deriving DecidableEq

/-- One entry of the `processed_items` list of `build_invoice_xml`
(lines 208-228). -/
structure ProcessedItem where
  name : String
  quantity : ℚ
  unit_price : ℚ
  vat_rate : ℚ
  vat_category : String
  line_amount : ℚ
  line_vat : ℚ
  deriving DecidableEq

/-- The per-item computation of `build_invoice_xml` (lines 208-228):
`line_amount = _round_decimal(qty * price)`,
`line_vat = _round_decimal(line_amount * vat_rate)`. -/
def processItem (it : LineItem) : ProcessedItem :=
  let qty := it.quantity
  let price := it.unit_price
  let vat_rate := it.vat_rate.getD (15 / 100)
  let vat_category := it.vat_category.getD ("S")
  let line_amount := round_decimal (qty * price) 2
  let line_vat := round_decimal (line_amount * vat_rate) 2
  { name := it.name, quantity := qty, unit_price := price, vat_rate := vat_rate,
    vat_category := vat_category, line_amount := line_amount, line_vat := line_vat }

def groupKey (it : ProcessedItem) : ℚ × String := (it.vat_rate, it.vat_category)

/-- One round of the `tax_groups` accumulation of `build_invoice_xml`
(lines 233-239): a missing key is initialised to zero and appended (Python
dict insertion order), an existing key is accumulated in place. -/
def upsertGroup : List ((ℚ × String) × ℚ × ℚ) → (ℚ × String) → ℚ → ℚ →
    List ((ℚ × String) × ℚ × ℚ)
  | [], key, la, lv => [(key, la, lv)]
  | (k, a, b) :: rest, key, la, lv =>
    if k = key then (k, a + la, b + lv) :: rest
    else (k, a, b) :: upsertGroup rest key la lv

def taxGroupsOf (items : List ProcessedItem) : List ((ℚ × String) × ℚ × ℚ) :=
  items.foldl (fun gs it => upsertGroup gs (groupKey it) it.line_amount it.line_vat) []

/-- A numeric element text as seen by the validator: absent (no element, or
falsy empty text), present but not parsable as `Decimal`, or a parsed
value. -/
inductive NumField where
  | absent
  | unparsable
  | val (q : ℚ)
  deriving DecidableEq

def qOf : NumField → ℚ
  | .val q => q
  | _ => 0

def numTruthy : NumField → Bool
  | .absent => false
  | _ => true

/-- The three texts BR-11 reads from one `cac:InvoiceLine`. -/
structure DocLine where
  quantity : NumField
  price : NumField
  line_extension : NumField
  deriving DecidableEq

/-- One declared `cac:TaxSubtotal` group. -/
structure TaxSubtotal where
  taxable : ℚ
  tax : ℚ
  rate : ℚ
  category : String
  deriving DecidableEq

/-- An invoice document, projected onto the values `validate_invoice_xml`
extracts by XPath (always the first match in document order) plus the
declared tax subtotals.  In a built document the first `cbc:ID` is the
invoice number, the first `cac:TaxTotal/cbc:TaxAmount` is the
document-level aggregate (invoice lines come later in document order). -/
structure InvoiceDoc where
  invoice_id : Option String
  uuid : Option String
  issue_date : Option String
  type_code : Option String
  subtype_name : Option String
  currency : Option String
  seller_name : Option String
  seller_vat : Option String
  buyer_name : Option String
  buyer_vat : Option String
  seller_street : Option String
  lines : List DocLine
  tax_amount : NumField
  tax_exclusive : NumField
  tax_inclusive : NumField
  payable : NumField
  tax_subtotals : List TaxSubtotal
  deriving DecidableEq

/-- The parameters of `build_invoice_xml` (lines 99-115), with the source
defaults. -/
structure BuildParams where
  invoice_type : String
  invoice_number : String
  issue_date : String
  seller_name : String
  seller_vat : String
  seller_address : String
  seller_city : String
  buyer_name : String
  line_items : List LineItem
  currency : String := "SAR"
  buyer_vat : Option String := none
  buyer_address : String := ""
  buyer_city : String := ""
  note : Option String := none
  qr_data : Option String := none
  deriving DecidableEq

/-- `INVOICE_TYPE_CODES.get(invoice_type, "388")`. -/
def invoiceTypeCode (t : String) : String :=
  if t = "standard" then "388"
  else if t = "simplified" then "388"
  else if t = "credit_note" then "381"
  else if t = "debit_note" then "383"
  else "388"

/-- `INVOICE_SUBTYPE_CODES.get(invoice_type, "0100000")`.  Note the source
table has no entry for credit or debit notes, so they fall back to
`0100000`. -/
def invoiceSubtypeCode (t : String) : String :=
  if t = "standard" then "0100000"
  else if t = "simplified" then "0200000"
  else "0100000"

/-- The declared `cac:TaxSubtotal` written for one tax group
(lines 247-263): taxable and tax amounts rounded at the write site. -/
def subtotalOfGroup (e : (ℚ × String) × ℚ × ℚ) : TaxSubtotal :=
  { taxable := round_decimal e.2.1 2, tax := round_decimal e.2.2 2,
    rate := e.1.1, category := e.1.2 }

/-- The computation of `xml_builder.build_invoice_xml` (lines 139-335),
projected onto the `InvoiceDoc` view: every field holds the text the
builder writes into the corresponding element.  The fresh `uuid.uuid4()`
is modelled by a fixed representative (the validator only tests its
presence); `_build_party` omits the `PartyTaxScheme` block when the VAT
number is falsy and the street element when the address is falsy.
All amounts are serialized with `_round_decimal` applied as at the
source write sites. -/
def build_invoice_doc (p : BuildParams) : InvoiceDoc :=
  let processed := p.line_items.map processItem
  let total_taxable := (processed.map (fun it => it.line_amount)).sum
  let total_vat := (processed.map (fun it => it.line_vat)).sum
  let total_with_vat := round_decimal (total_taxable + total_vat) 2
  let groups := taxGroupsOf processed
  { invoice_id := some p.invoice_number
    uuid := some ("00000000-0000-4000-8000-000000000000")
    issue_date := some p.issue_date
    type_code := some (invoiceTypeCode p.invoice_type)
    subtype_name := some (invoiceSubtypeCode p.invoice_type)
    currency := some p.currency
    seller_vat := if p.seller_vat = "" then none else some p.seller_vat
    seller_name := some p.seller_name
    buyer_name := some p.buyer_name
    buyer_vat := match p.buyer_vat with
      | none => none
      | some v => if v = "" then none else some v
    seller_street := if p.seller_address = "" then none else some p.seller_address
    lines := processed.map (fun it =>
      { quantity := .val it.quantity,
        price := .val (round_decimal it.unit_price 2),
        line_extension := .val (round_decimal it.line_amount 2) })
    tax_amount := .val (round_decimal total_vat 2)
    tax_exclusive := .val (round_decimal total_taxable 2)
    tax_inclusive := .val (round_decimal total_with_vat 2)
    payable := .val (round_decimal total_with_vat 2)
    tax_subtotals := groups.map subtotalOfGroup }

def groupLines (items : List ProcessedItem) (key : ℚ × String) : List ProcessedItem :=
  items.filter (fun it => decide (groupKey it = key))

def groupLineAmountSum (items : List ProcessedItem) (key : ℚ × String) : ℚ :=
  ((groupLines items key).map (fun it => it.line_amount)).sum

def groupLineVatSum (items : List ProcessedItem) (key : ℚ × String) : ℚ :=
  ((groupLines items key).map (fun it => it.line_vat)).sum

def findGroup : List ((ℚ × String) × ℚ × ℚ) → (ℚ × String) → Option (ℚ × ℚ)
  | [], _ => none
  | (k, a, b) :: rest, key => if k = key then some (a, b) else findGroup rest key

theorem findGroup_upsert (gs : List ((ℚ × String) × ℚ × ℚ)) (key key' : ℚ × String)
    (la lv : ℚ) :
    findGroup (upsertGroup gs key la lv) key' =
      if key' = key then
        some (((findGroup gs key).getD (0, 0)).1 + la,
          ((findGroup gs key).getD (0, 0)).2 + lv)
      else findGroup gs key' := by
  induction gs with
  | nil =>
    by_cases h : key' = key
    · subst h
      simp [upsertGroup, findGroup]
    · rw [if_neg h]
      simp [upsertGroup, findGroup]
      intro hcon
      exact absurd hcon.symm h
  | cons g rest ih =>
    obtain ⟨k, a, b⟩ := g
    by_cases h1 : k = key
    · subst h1
      simp only [upsertGroup, if_pos rfl]
      by_cases h2 : key' = k
      · subst h2
        simp [findGroup]
      · rw [if_neg h2]
        simp only [findGroup]
        rw [if_neg (fun hc => h2 hc.symm), if_neg (fun hc => h2 hc.symm)]
    · simp only [upsertGroup, if_neg h1]
      by_cases h2 : key' = key
      · subst h2
        simp only [findGroup]
        rw [if_neg h1, ih]
        simp [findGroup, h1]
      · rw [if_neg h2]
        by_cases h3 : k = key'
        · subst h3
          simp [findGroup]
        · simp only [findGroup]
          rw [if_neg h3, if_neg h3, ih, if_neg h2]

theorem findGroup_of_mem :
    ∀ (gs : List ((ℚ × String) × ℚ × ℚ)), (gs.map Prod.fst).Nodup →
    ∀ k (ab : ℚ × ℚ), (k, ab) ∈ gs → findGroup gs k = some ab := by
  intro gs
  induction gs with
  | nil => intro _ k ab h; simp at h
  | cons g rest ih =>
    intro hnd k ab hmem
    obtain ⟨k', a', b'⟩ := g
    have hnd' : k' ∉ rest.map Prod.fst ∧ (rest.map Prod.fst).Nodup := by
      constructor
      · exact (List.nodup_cons.mp (by simpa using hnd)).1
      · exact (List.nodup_cons.mp (by simpa using hnd)).2
    rcases List.mem_cons.mp hmem with heq | hmem'
    · have hk : k' = k ∧ (a', b') = ab := by
        constructor
        · exact (Prod.mk.injEq _ _ _ _ ▸ congrArg Prod.fst heq.symm)
        · exact congrArg Prod.snd heq.symm
      obtain ⟨rfl, rfl⟩ := hk
      simp [findGroup]
    · have hkne : ¬ k' = k := by
        intro hcon
        subst hcon
        exact hnd'.1 (List.mem_map.mpr ⟨(k', ab), hmem', rfl⟩)
      simp only [findGroup]
      rw [if_neg hkne]
      exact ih hnd'.2 k ab hmem'

theorem upsert_keys_subset (gs : List ((ℚ × String) × ℚ × ℚ)) (key : ℚ × String)
    (la lv : ℚ) :
    ∀ x ∈ (upsertGroup gs key la lv).map Prod.fst,
      x ∈ gs.map Prod.fst ∨ x = key := by
  induction gs with
  | nil =>
    intro x hx
    simp [upsertGroup] at hx
    exact Or.inr hx
  | cons g rest ih =>
    obtain ⟨k, a, b⟩ := g
    intro x hx
    by_cases hk : k = key
    · simp only [upsertGroup, if_pos hk] at hx
      simp only [List.map_cons, List.mem_cons] at hx
      rcases hx with rfl | hx
      · exact Or.inl (by simp)
      · exact Or.inl (by simp [hx])
    · simp only [upsertGroup, if_neg hk] at hx
      simp only [List.map_cons, List.mem_cons] at hx
      rcases hx with rfl | hx
      · exact Or.inl (by simp)
      · rcases ih x hx with h | h
        · exact Or.inl (by simp [h])
        · exact Or.inr h

theorem upsert_keys_nodup (gs : List ((ℚ × String) × ℚ × ℚ)) (key : ℚ × String)
    (la lv : ℚ) (h : (gs.map Prod.fst).Nodup) :
    ((upsertGroup gs key la lv).map Prod.fst).Nodup := by
  induction gs with
  | nil => simp [upsertGroup]
  | cons g rest ih =>
    obtain ⟨k, a, b⟩ := g
    have h1 : k ∉ rest.map Prod.fst := (List.nodup_cons.mp (by simpa using h)).1
    have h2 : (rest.map Prod.fst).Nodup := (List.nodup_cons.mp (by simpa using h)).2
    by_cases hk : k = key
    · simp only [upsertGroup, if_pos hk]
      simpa using List.nodup_cons.mpr ⟨h1, h2⟩
    · simp only [upsertGroup, if_neg hk]
      refine List.nodup_cons.mpr ⟨?_, ih h2⟩
      intro hcon
      rcases upsert_keys_subset rest key la lv k hcon with h | h
      · exact h1 h
      · exact hk h

theorem taxGroups_keys_nodup (items : List ProcessedItem) :
    ((taxGroupsOf items).map Prod.fst).Nodup := by
  unfold taxGroupsOf
  suffices H : ∀ gs : List ((ℚ × String) × ℚ × ℚ), (gs.map Prod.fst).Nodup →
      ((items.foldl (fun gs it =>
        upsertGroup gs (groupKey it) it.line_amount it.line_vat) gs).map Prod.fst).Nodup by
    exact H [] (by simp)
  induction items with
  | nil => intro gs h; simpa using h
  | cons it rest ih =>
    intro gs h
    rw [List.foldl_cons]
    exact ih _ (upsert_keys_nodup gs (groupKey it) it.line_amount it.line_vat h)

theorem groupLineAmountSum_cons (it : ProcessedItem) (rest : List ProcessedItem)
    (key : ℚ × String) :
    groupLineAmountSum (it :: rest) key =
      (if groupKey it = key then it.line_amount else 0) + groupLineAmountSum rest key := by
  unfold groupLineAmountSum groupLines
  by_cases h : groupKey it = key
  · simp [List.filter_cons, h]
  · simp [List.filter_cons, h]

theorem groupLineVatSum_cons (it : ProcessedItem) (rest : List ProcessedItem)
    (key : ℚ × String) :
    groupLineVatSum (it :: rest) key =
      (if groupKey it = key then it.line_vat else 0) + groupLineVatSum rest key := by
  unfold groupLineVatSum groupLines
  by_cases h : groupKey it = key
  · simp [List.filter_cons, h]
  · simp [List.filter_cons, h]

theorem taxFold_lookup :
    ∀ (items : List ProcessedItem) (gs : List ((ℚ × String) × ℚ × ℚ))
      (key : ℚ × String),
    findGroup (items.foldl (fun gs it =>
        upsertGroup gs (groupKey it) it.line_amount it.line_vat) gs) key =
      match findGroup gs key with
      | some (a, b) =>
        some (a + groupLineAmountSum items key, b + groupLineVatSum items key)
      | none =>
        if items.any (fun it => decide (groupKey it = key)) then
          some (groupLineAmountSum items key, groupLineVatSum items key)
        else none := by
  intro items
  induction items with
  | nil =>
    intro gs key
    cases h : findGroup gs key with
    | none => simp [h]
    | some ab =>
      obtain ⟨a, b⟩ := ab
      simp [h, groupLineAmountSum, groupLineVatSum, groupLines]
  | cons it rest ih =>
    intro gs key
    rw [List.foldl_cons,
      ih (upsertGroup gs (groupKey it) it.line_amount it.line_vat) key,
      findGroup_upsert, groupLineAmountSum_cons, groupLineVatSum_cons,
      List.any_cons]
    by_cases hkey : key = groupKey it
    · subst hkey
      cases h : findGroup gs (groupKey it) with
      | none =>
        simp only [h, if_pos rfl, Option.getD_none, decide_True, Bool.true_or,
          if_true, Option.some.injEq, Prod.mk.injEq]
        constructor <;> ring
      | some ab =>
        obtain ⟨a, b⟩ := ab
        simp only [h, if_pos rfl, if_true, Option.getD_some, Option.some.injEq,
          Prod.mk.injEq]
        constructor <;> ring
    · have hkey' : ¬ groupKey it = key := fun hc => hkey hc.symm
      simp only [if_neg hkey, if_neg hkey', zero_add]
      have hdec : decide (groupKey it = key) = false := by simp [hkey']
      rw [hdec]
      simp only [Bool.false_or]

/-- C7: in every built document the declared tax-inclusive amount is
`round2` of the declared tax-exclusive amount plus the declared aggregate
tax amount, the payable amount equals the tax-inclusive amount, and each
declared tax subtotal equals the sum of the rounded line amounts
(resp. rounded line VAT amounts) of the lines in its
`(vat_rate, vat_category)` group. -/
theorem c7_builder_invariants (p : BuildParams) :
    (build_invoice_doc p).tax_inclusive =
      NumField.val (round_decimal (qOf (build_invoice_doc p).tax_exclusive +
        qOf (build_invoice_doc p).tax_amount) 2) ∧
    (build_invoice_doc p).payable = (build_invoice_doc p).tax_inclusive ∧
    ∀ g ∈ (build_invoice_doc p).tax_subtotals,
      g.taxable = groupLineAmountSum (p.line_items.map processItem)
        (g.rate, g.category) ∧
      g.tax = groupLineVatSum (p.line_items.map processItem)
        (g.rate, g.category) := by
  have hIs : ∀ it ∈ p.line_items.map processItem,
      Is2dp it.line_amount ∧ Is2dp it.line_vat := by
    intro it hit
    rcases List.mem_map.mp hit with ⟨x, hx, rfl⟩
    exact ⟨is2dp_round2 _, is2dp_round2 _⟩
  have hT : Is2dp (((p.line_items.map processItem).map
      (fun it => it.line_amount)).sum) := by
    apply is2dp_sum
    intro x hx
    rcases List.mem_map.mp hx with ⟨it, hit, rfl⟩
    exact (hIs it hit).1
  have hV : Is2dp (((p.line_items.map processItem).map
      (fun it => it.line_vat)).sum) := by
    apply is2dp_sum
    intro x hx
    rcases List.mem_map.mp hx with ⟨it, hit, rfl⟩
    exact (hIs it hit).2
  refine ⟨?_, rfl, ?_⟩
  · have h1 : (build_invoice_doc p).tax_inclusive =
        NumField.val (round_decimal
          ((((p.line_items.map processItem).map (fun it => it.line_amount)).sum) +
           (((p.line_items.map processItem).map (fun it => it.line_vat)).sum)) 2) := by
      show NumField.val (round_decimal (round_decimal _ 2) 2) = _
      rw [round2_eq_self (is2dp_round2 _)]
    have h2 : qOf (build_invoice_doc p).tax_exclusive =
        (((p.line_items.map processItem).map (fun it => it.line_amount)).sum) := by
      show round_decimal _ 2 = _
      exact round2_eq_self hT
    have h3 : qOf (build_invoice_doc p).tax_amount =
        (((p.line_items.map processItem).map (fun it => it.line_vat)).sum) := by
      show round_decimal _ 2 = _
      exact round2_eq_self hV
    rw [h1, h2, h3]
  · intro g hg
    have hg' : g ∈ (taxGroupsOf (p.line_items.map processItem)).map
        subtotalOfGroup := hg
    rcases List.mem_map.mp hg' with ⟨e, he, rfl⟩
    obtain ⟨⟨r, cat⟩, a, b⟩ := e
    have hfind : findGroup (taxGroupsOf (p.line_items.map processItem)) (r, cat) =
        some (a, b) :=
      findGroup_of_mem _ (taxGroups_keys_nodup _) _ _ he
    have hchar : findGroup (taxGroupsOf (p.line_items.map processItem)) (r, cat) =
        if (p.line_items.map processItem).any
            (fun it => decide (groupKey it = (r, cat))) then
          some (groupLineAmountSum (p.line_items.map processItem) (r, cat),
            groupLineVatSum (p.line_items.map processItem) (r, cat))
        else none :=
      taxFold_lookup (p.line_items.map processItem) [] (r, cat)
    rw [hfind] at hchar
    have hab : a = groupLineAmountSum (p.line_items.map processItem) (r, cat) ∧
        b = groupLineVatSum (p.line_items.map processItem) (r, cat) := by
      by_cases hany : (p.line_items.map processItem).any
          (fun it => decide (groupKey it = (r, cat))) = true
      · rw [if_pos hany] at hchar
        have := Option.some.injEq _ _ ▸ hchar
        exact ⟨congrArg Prod.fst (Option.some.inj hchar),
          congrArg Prod.snd (Option.some.inj hchar)⟩
      · rw [if_neg hany] at hchar
        exact absurd hchar (by simp)
    have hsumA : Is2dp (groupLineAmountSum (p.line_items.map processItem) (r, cat)) := by
      apply is2dp_sum
      intro x hx
      rcases List.mem_map.mp hx with ⟨it, hit, rfl⟩
      exact (hIs it (List.mem_of_mem_filter hit)).1
    have hsumB : Is2dp (groupLineVatSum (p.line_items.map processItem) (r, cat)) := by
      apply is2dp_sum
      intro x hx
      rcases List.mem_map.mp hx with ⟨it, hit, rfl⟩
      exact (hIs it (List.mem_of_mem_filter hit)).2
    constructor
    · show round_decimal a 2 = _
      rw [hab.1, round2_eq_self hsumA]
      rfl
    · show round_decimal b 2 = _
      rw [hab.2, round2_eq_self hsumB]
      rfl

/-- A concrete simplified invoice with one 1000.00 line, used as a
witness input. -/
def exampleSimplifiedParams : BuildParams :=
  { invoice_type := "simplified", invoice_number := "INV-TEST-001",
    issue_date := "2024-01-15", seller_name := "Fikrah Tech",
    seller_vat := "300000000000003", seller_address := "123 King Fahd Road",
    seller_city := "Riyadh", buyer_name := "Test Customer",
    line_items := [{ name := "Consulting", quantity := 1, unit_price := 1000 }] }

theorem c7_builder_invariants_witness :
    ((⟨1000, 150, 15 / 100, "S"⟩ : TaxSubtotal) ∈
      (build_invoice_doc exampleSimplifiedParams).tax_subtotals) ∧
    (⟨1000, 150, 15 / 100, "S"⟩ : TaxSubtotal).taxable =
      groupLineAmountSum (exampleSimplifiedParams.line_items.map processItem)
        (15 / 100, "S") ∧
    (build_invoice_doc exampleSimplifiedParams).payable =
      (build_invoice_doc exampleSimplifiedParams).tax_inclusive :=
  ⟨by decide,
   ((c7_builder_invariants exampleSimplifiedParams).2.2 _ (by decide)).1,
   (c7_builder_invariants exampleSimplifiedParams).2.1⟩

/-- Python truthiness of an optional element text: present and non-empty. -/
def strTruthy : Option String → Bool
  | none => false
  | some s => if s = "" then false else true

/-- The regex `^\d{4}-\d{2}-\d{2}$` applied with `re.match`. -/
def matchesYMD : List Char → Bool
  | [a, b, c, d, ('-' : Char), f, g, ('-' : Char), i, j] =>
    pyIsDecimalDigit a && pyIsDecimalDigit b && pyIsDecimalDigit c &&
    pyIsDecimalDigit d && pyIsDecimalDigit f && pyIsDecimalDigit g &&
    pyIsDecimalDigit i && pyIsDecimalDigit j
  | _ => false

/-- `re.match(r"^\d{4}-\d{2}-\d{2}$", s)`: anchored at the start; `$` also
matches just before a final newline. -/
def pyFullMatchYMD (s : String) : Bool :=
  matchesYMD s.toList ||
    (s.toList.getLast? == some (Char.ofNat 10) && matchesYMD s.toList.dropLast)

/-- `str.startswith("01")`: the first two characters are `0`, `1`.
(`String.startsWith` itself does not reduce in the kernel.) -/
def startsWith01 (s : String) : Bool :=
  s.toList.take 2 == [('0' : Char), ('1' : Char)]

structure ValidationResult where
  is_valid : Bool
  errors : List String
  warnings : List String
  checks_run : Nat
  deriving DecidableEq

/-- `enumerate(lines, start=1)`. -/
def withIndex {α : Type} (start : Nat) : List α → List (Nat × α)
  | [] => []
  | x :: xs => (start, x) :: withIndex (start + 1) xs

/-- The BR-11 loop of `validate_invoice_xml` (lines 142-163), error part:
for each line whose three texts are present, recompute
`quantize01(qty * price)` and flag a mismatch beyond 0.01.  The source
message interpolates the decimal values; the embedding keeps the rule-code
prefix and the line index. -/
def br11ErrorsOf (ls : List (Nat × DocLine)) : List String :=
  ls.flatMap (fun il =>
    if numTruthy il.2.quantity && numTruthy il.2.price &&
        numTruthy il.2.line_extension then
      match il.2.quantity, il.2.price, il.2.line_extension with
      | .val q, .val pr, .val e =>
        if |quantize01 (q * pr) - e| > 1/100 then
          ["BR-11: Line " ++ toString il.1 ++ " total mismatch"]
        else []
      | _, _, _ => []
    else [])

/-- The BR-11 loop, warning part: a present but unparsable text raises
inside the `try`, producing the could-not-validate warning. -/
def br11WarningsOf (ls : List (Nat × DocLine)) : List String :=
  ls.flatMap (fun il =>
    if numTruthy il.2.quantity && numTruthy il.2.price &&
        numTruthy il.2.line_extension then
      match il.2.quantity, il.2.price, il.2.line_extension with
      | .val _, .val _, .val _ => []
      | _, _, _ => ["BR-11: Could not validate math on line " ++ toString il.1]
    else [])

/-- `validation.validate_invoice_xml` (lines 49-216) after a successful
parse: the ordered battery BR-01..BR-14 appending to `errors`, the
non-blocking warnings, `is_valid = (errors == [])` and the constant
`checks_run = 14` from line 215.  The BR-11/BR-14 mismatch messages are
kept as their rule-code prefix (the source interpolates the decimals). -/
def validate_invoice_doc (d : InvoiceDoc) : ValidationResult :=
  let errors :=
    (if strTruthy d.invoice_id then []
      else ["BR-01: Invoice ID (cbc:ID) is mandatory"]) ++
    (if strTruthy d.issue_date then
      (if pyFullMatchYMD (d.issue_date.getD ("")) then []
       else ["BR-02: Issue Date must be YYYY-MM-DD format, got: " ++
         d.issue_date.getD ("")])
     else ["BR-02: Issue Date (cbc:IssueDate) is mandatory"]) ++
    (if strTruthy d.type_code then
      (if d.type_code.getD ("") = "388" ∨ d.type_code.getD ("") = "381" ∨
          d.type_code.getD ("") = "383" then []
       else ["BR-03: Invalid Invoice Type Code: " ++ d.type_code.getD ("")])
     else ["BR-03: Invoice Type Code is mandatory"]) ++
    (if strTruthy d.currency then []
      else ["BR-04: Document Currency Code is mandatory"]) ++
    (if strTruthy d.seller_name then []
      else ["BR-05: Seller name is mandatory"]) ++
    (if strTruthy d.seller_vat then
      (validate_vat_number (d.seller_vat.getD ("")).toList).map
        (fun ve => "BR-06: Seller VAT - " ++ ve)
     else ["BR-06: Seller VAT number is mandatory"]) ++
    (if strTruthy d.buyer_name then []
      else ["BR-07: Buyer name is mandatory"]) ++
    (match d.subtype_name with
     | some sv =>
       if startsWith01 sv then
         (if strTruthy d.buyer_vat then []
          else ["BR-08: Buyer VAT number is mandatory for standard (B2B) invoices"])
       else []
     | none => []) ++
    (if d.lines = [] then ["BR-10: Invoice must have at least one line item"]
      else []) ++
    br11ErrorsOf (withIndex 1 d.lines) ++
    (if numTruthy d.tax_amount then [] else ["BR-12: Tax total is mandatory"]) ++
    (if numTruthy d.payable then [] else ["BR-13: Payable amount is mandatory"]) ++
    (if numTruthy d.tax_exclusive && numTruthy d.tax_amount &&
        numTruthy d.tax_inclusive then
      match d.tax_exclusive, d.tax_amount, d.tax_inclusive with
      | .val excl, .val tax, .val incl =>
        if |quantize01 (excl + tax) - incl| > 1/100 then
          ["BR-14: Tax inclusive amount mismatch"]
        else []
      | _, _, _ => []
     else [])
  let warnings :=
    br11WarningsOf (withIndex 1 d.lines) ++
    (if numTruthy d.tax_exclusive && numTruthy d.tax_amount &&
        numTruthy d.tax_inclusive then
      match d.tax_exclusive, d.tax_amount, d.tax_inclusive with
      | .val _, .val _, .val _ => []
      | _, _, _ => ["BR-14: Could not cross-check invoice totals"]
     else []) ++
    (if strTruthy d.uuid then [] else ["Invoice UUID is recommended"]) ++
    (if strTruthy d.seller_street then []
      else ["Seller street address is recommended"])
  { is_valid := errors.isEmpty, errors := errors, warnings := warnings,
    checks_run := 14 }

/-- A concrete credit note, matching the defaults of the repository's own
credit/debit tests except that `build_invoice_xml` accepts no billing
reference or instruction note. -/
def exampleCreditNoteParams : BuildParams :=
  { invoice_type := "credit_note", invoice_number := "CN-2024-001",
    issue_date := "2024-02-15", seller_name := "Fikrah Tech",
    seller_vat := "300000000000003", seller_address := "123 King Fahd Road",
    seller_city := "Riyadh", buyer_name := "Test Customer",
    buyer_vat := some ("310000000000003"),
    line_items := [{ name := "Consulting refund", quantity := 1, unit_price := 1000 }] }

/-- C1 (code evidence): a credit-note document built by the builder (type
code 381, necessarily without a billing reference, since the builder
accepts none) validates with an empty error list, `is_valid = true` and no
warnings: the validator has no BR-15 or BR-16 rule at all, contradicting
the claim and the repository's own tests. -/
theorem c1_credit_note_no_br15 :
    (build_invoice_doc exampleCreditNoteParams).type_code = some ("381") ∧
    (validate_invoice_doc (build_invoice_doc exampleCreditNoteParams)).errors = [] ∧
    (validate_invoice_doc (build_invoice_doc exampleCreditNoteParams)).is_valid
      = true ∧
    (validate_invoice_doc (build_invoice_doc exampleCreditNoteParams)).warnings
      = [] := by
  refine ⟨by decide, by decide, by decide, by decide⟩

/-- C3 (code evidence): `checks_run` is the constant 14 for every parsed
document, including credit/debit notes (type codes 381 and 383), where the
claim and the repository's own tests expect 16. -/
theorem c3_checks_run_constant :
    (∀ d : InvoiceDoc, (validate_invoice_doc d).checks_run = 14) ∧
    (build_invoice_doc exampleCreditNoteParams).type_code = some ("381") ∧
    (validate_invoice_doc (build_invoice_doc exampleCreditNoteParams)).checks_run
      = 14 :=
  ⟨fun _ => rfl, by decide, by decide⟩

/-- The QR totals computed by `server.generate_invoice` (lines 206-220):
`total_taxable` and `total_vat` are summed unrounded over the parsed
items (`vat_rate` default 0.15) and quantized once at the end; returns
`(total_with_vat, total_vat_rounded)` as passed to `encode_tlv`. -/
def qr_totals (items : List LineItem) : ℚ × ℚ :=
  let total_taxable := (items.map (fun i => i.quantity * i.unit_price)).sum
  let total_vat := (items.map (fun i =>
    i.quantity * i.unit_price * i.vat_rate.getD (15 / 100))).sum
  (quantize01 (total_taxable + total_vat), quantize01 total_vat)

/-- Two one-cent lines whose VAT rounds away per line but not in the
unrounded sum. -/
def c5CounterParams : BuildParams :=
  { invoice_type := "simplified", invoice_number := "INV-R-001",
    issue_date := "2024-01-15", seller_name := "Fikrah Tech",
    seller_vat := "300000000000003", seller_address := "123 King Fahd Road",
    seller_city := "Riyadh", buyer_name := "Test Customer",
    line_items := [{ name := "A", quantity := 1, unit_price := 3 / 100 },
      { name := "B", quantity := 1, unit_price := 3 / 100 }] }

/-- C5 (counterexample): for two lines of 0.03 at the default 15% rate the
QR totals are (0.07, 0.01) while the built document declares payable 0.06
and aggregate tax 0.00 — the sum-then-round QR path and the
round-per-line builder path disagree. -/
theorem c5_qr_totals_counterexample :
    qr_totals c5CounterParams.line_items ≠
      (qOf (build_invoice_doc c5CounterParams).payable,
       qOf (build_invoice_doc c5CounterParams).tax_amount) ∧
    qr_totals c5CounterParams.line_items = (7 / 100, 1 / 100) ∧
    (qOf (build_invoice_doc c5CounterParams).payable,
      qOf (build_invoice_doc c5CounterParams).tax_amount) = (6 / 100, 0) := by
  refine ⟨by decide, by decide, by decide⟩

/-- C5 (amended): when no line needs rounding — each line's
`quantity * unit_price` and `quantity * unit_price * vat_rate` are already
exact to two decimals — the totals `generate_invoice` passes to
`encode_tlv` equal the PayableAmount and the aggregate TaxAmount of the
built document.  (In general the two rounding paths may differ by a cent,
as the counterexample shows.) -/
theorem c5_qr_totals_agree (p : BuildParams)
    (h : ∀ it ∈ p.line_items, Is2dp (it.quantity * it.unit_price) ∧
      Is2dp (it.quantity * it.unit_price * it.vat_rate.getD (15 / 100))) :
    qr_totals p.line_items =
      (qOf (build_invoice_doc p).payable,
       qOf (build_invoice_doc p).tax_amount) := by
  have hA : ∀ it ∈ p.line_items,
      (processItem it).line_amount = it.quantity * it.unit_price :=
    fun it hit => round2_eq_self (h it hit).1
  have hB : ∀ it ∈ p.line_items,
      (processItem it).line_vat =
        it.quantity * it.unit_price * it.vat_rate.getD (15 / 100) := by
    intro it hit
    show round_decimal ((processItem it).line_amount *
      (it.vat_rate.getD (15 / 100))) 2 = _
    rw [hA it hit]
    exact round2_eq_self (h it hit).2
  have hTmap : (p.line_items.map processItem).map (fun it => it.line_amount) =
      p.line_items.map (fun it => it.quantity * it.unit_price) := by
    rw [List.map_map]
    exact List.map_congr_left (fun a ha => hA a ha)
  have hVmap : (p.line_items.map processItem).map (fun it => it.line_vat) =
      p.line_items.map (fun it =>
        it.quantity * it.unit_price * it.vat_rate.getD (15 / 100)) := by
    rw [List.map_map]
    exact List.map_congr_left (fun a ha => hB a ha)
  show (quantize01 _, quantize01 _) =
    (round_decimal (round_decimal
      (((p.line_items.map processItem).map (fun it => it.line_amount)).sum +
       ((p.line_items.map processItem).map (fun it => it.line_vat)).sum) 2) 2,
     round_decimal ((p.line_items.map processItem).map (fun it => it.line_vat)).sum 2)
  rw [round2_eq_self (is2dp_round2 _)]
  rw [round_decimal_eq_quantize01, round_decimal_eq_quantize01]
  rw [hTmap, hVmap]

theorem c5_qr_totals_agree_witness :
    (∀ it ∈ exampleSimplifiedParams.line_items,
      Is2dp (it.quantity * it.unit_price) ∧
      Is2dp (it.quantity * it.unit_price * it.vat_rate.getD (15 / 100))) ∧
    qr_totals exampleSimplifiedParams.line_items =
      (qOf (build_invoice_doc exampleSimplifiedParams).payable,
       qOf (build_invoice_doc exampleSimplifiedParams).tax_amount) :=
  ⟨by decide, c5_qr_totals_agree exampleSimplifiedParams (by decide)⟩

/-- A JSON value at a numeric position: `float(x)` succeeds exactly on the
numeric case. -/
inductive PyNum where
  | num (q : ℚ)
  | nonNumeric
  deriving DecidableEq

/-- One parsed element of the `items` JSON array of
`server.generate_invoice`: `none` models a missing key. -/
structure GenItem where
  name : Option String := none
  quantity : Option PyNum := none
  unit_price : Option PyNum := none
  vat_rate : Option ℚ := none
  vat_category : Option String := none
  deriving DecidableEq

/-- The arguments of `server.generate_invoice` (lines 99-117), with `items`
already parsed from JSON (a parse failure returns the invalid-JSON error
before any of the modelled steps). -/
structure GenInput where
  invoice_type : String
  invoice_number : String
  issue_date : String
  seller_name : String
  seller_vat : String
  seller_address : String
  seller_city : String
  buyer_name : String
  items : List GenItem
  currency : String := "SAR"
  buyer_vat : Option String := none
  buyer_address : String := ""
  buyer_city : String := ""
  note : Option String := none
  billing_reference_id : Option String := none
  billing_reference_date : Option String := none
  instruction_note : Option String := none
  deriving DecidableEq

/-- The per-item validation of `generate_invoice` (lines 175-191): missing
required keys in order name, quantity, unit_price; then `float()`
conversion; then quantity > 0 and unit_price >= 0. -/
def itemCheck (ii : Nat × GenItem) : Option String :=
  if ii.2.name = none then
    some ("Line item " ++ toString ii.1 ++ " missing required field: name")
  else if ii.2.quantity = none then
    some ("Line item " ++ toString ii.1 ++ " missing required field: quantity")
  else if ii.2.unit_price = none then
    some ("Line item " ++ toString ii.1 ++ " missing required field: unit_price")
  else
    match ii.2.quantity.getD .nonNumeric, ii.2.unit_price.getD .nonNumeric with
    | .num qty, .num price =>
      if qty ≤ 0 then
        some ("Line item " ++ toString ii.1 ++ ": quantity must be positive")
      else if price < 0 then
        some ("Line item " ++ toString ii.1 ++ ": unit_price must be non-negative")
      else none
    | _, _ =>
      some ("Line item " ++ toString ii.1 ++
        ": quantity and unit_price must be numeric")

def itemsCheck : List (Nat × GenItem) → Option String
  | [] => none
  | ii :: rest =>
    match itemCheck ii with
    | some e => some e
    | none => itemsCheck rest

/-- The early-return validations of `generate_invoice` (lines 149-202), in
source order; `some msg` models returning the JSON error object. -/
def genValidate (inp : GenInput) : Option String :=
  if !pyFullMatchYMD inp.issue_date then
    some ("issue_date must be YYYY-MM-DD format, got: " ++ inp.issue_date)
  else if inp.seller_name.length > 200 then
    some ("seller_name exceeds 200 character limit")
  else if inp.buyer_name.length > 200 then
    some ("buyer_name exceeds 200 character limit")
  else if inp.seller_address.length > 500 then
    some ("seller_address exceeds 500 character limit")
  else if inp.seller_city.length > 200 then
    some ("seller_city exceeds 200 character limit")
  else if inp.buyer_address.length > 500 then
    some ("buyer_address exceeds 500 character limit")
  else if inp.buyer_city.length > 200 then
    some ("buyer_city exceeds 200 character limit")
  else if inp.items = [] then
    some ("At least one line item is required")
  else
    match itemsCheck (withIndex 1 inp.items) with
    | some e => some e
    | none =>
      if validate_vat_number inp.seller_vat.toList ≠ [] then
        some ("Invalid seller VAT")
      else if inp.invoice_type = "standard" && !(strTruthy inp.buyer_vat) then
        some ("Buyer VAT number is required for standard (B2B) invoices")
      else none

/-- The parsed item as handed to the builder and the totals computation. -/
def toLineItem (it : GenItem) : LineItem :=
  { name := it.name.getD (""),
    quantity := match it.quantity with | some (.num q) => q | _ => 0,
    unit_price := match it.unit_price with | some (.num q) => q | _ => 0,
    vat_rate := it.vat_rate,
    vat_category := it.vat_category }

/-- UTF-8 encoding of one scalar value (`str.encode("utf-8")`). -/
def utf8Bytes (c : Char) : List Nat :=
  let n := c.toNat
  if n < 0x80 then [n]
  else if n < 0x800 then [0xC0 + n / 64, 0x80 + n % 64]
  else if n < 0x10000 then
    [0xE0 + n / 4096, 0x80 + n / 64 % 64, 0x80 + n % 64]
  else
    [0xF0 + n / 262144, 0x80 + n / 4096 % 64, 0x80 + n / 64 % 64, 0x80 + n % 64]

def strBytes (s : String) : List Nat := s.data.flatMap utf8Bytes

/-- `str(...)` of a Decimal already quantized to two places: sign, integer
digits, point, two fractional digits. -/
def decimal2Str (q : ℚ) : String :=
  let n : ℤ := ⌊q * 100⌋
  let m := n.natAbs
  (if n < 0 then "-" else "") ++ toString (m / 100) ++ "." ++
    (if m % 100 < 10 then "0" else "") ++ toString (m % 100)

/-- The QR fields `generate_invoice` passes to `encode_tlv`
(lines 225-231); the wall-clock time inside the timestamp is modelled by a
fixed representative of the same byte length. -/
def qrFieldsOf (inp : GenInput) : QRFields :=
  let totals := qr_totals (inp.items.map toLineItem)
  { seller_name := strBytes inp.seller_name,
    vat_number := strBytes inp.seller_vat,
    timestamp := strBytes (inp.issue_date ++ "T00:00:00Z"),
    total_amount := strBytes (decimal2Str totals.1),
    vat_amount := strBytes (decimal2Str totals.2) }

/-- The parameter names in the signature of `build_invoice_xml`
(xml_builder.py lines 99-115).  The function has no `**kwargs`. -/
def build_invoice_xml_param_names : List String :=
  ["invoice_type", "invoice_number", "issue_date", "seller_name",
   "seller_vat", "seller_address", "seller_city", "buyer_name", "line_items",
   "currency", "buyer_vat", "buyer_address", "buyer_city", "note", "qr_data"]

/-- The keyword argument names `generate_invoice` passes at the
`build_invoice_xml` call site (server.py lines 234-253). -/
def generate_invoice_call_keywords : List String :=
  ["invoice_type", "invoice_number", "issue_date", "seller_name",
   "seller_vat", "seller_address", "seller_city", "buyer_name", "buyer_vat",
   "buyer_address", "buyer_city", "line_items", "currency", "note", "qr_data",
   "billing_reference_id", "billing_reference_date", "instruction_note"]

/-- Python binds a call only when every keyword argument names a parameter
of the callee; otherwise the call raises `TypeError` before the body
runs. -/
def buildCallBindsOk : Bool :=
  generate_invoice_call_keywords.all
    (fun k => build_invoice_xml_param_names.contains k)

inductive GenResult where
  | errorJson (msg : String)
  | pyValueError
  | typeError
  | xml (doc : InvoiceDoc)
  deriving DecidableEq

/-- `server.generate_invoice` (lines 99-255): validations with JSON error
returns, the QR encoding (whose `ValueError` is uncaught and propagates),
then the `build_invoice_xml` call, which Python binds (raising `TypeError`
on an unknown keyword) before any XML is produced. -/
def generate_invoice (inp : GenInput) : GenResult :=
  match genValidate inp with
  | some e => .errorJson e
  | none =>
    match encode_tlv (qrFieldsOf inp) with
    | .error _ => .pyValueError
    | .ok qr =>
      if buildCallBindsOk then
        .xml (build_invoice_doc
          { invoice_type := inp.invoice_type,
            invoice_number := inp.invoice_number,
            issue_date := inp.issue_date,
            seller_name := inp.seller_name,
            seller_vat := inp.seller_vat,
            seller_address := inp.seller_address,
            seller_city := inp.seller_city,
            buyer_name := inp.buyer_name,
            buyer_vat := inp.buyer_vat,
            buyer_address := inp.buyer_address,
            buyer_city := inp.buyer_city,
            line_items := inp.items.map toLineItem,
            currency := inp.currency,
            note := inp.note,
            qr_data := some (String.mk qr) })
      else .typeError

/-- A valid input whose seller name is 200 Arabic characters: every
`generate_invoice` validation passes (the length limit counts characters),
but its UTF-8 encoding is 400 bytes, so `encode_tlv` raises `ValueError`
before `build_invoice_xml` is ever called. -/
def exampleGenItem : GenItem :=
  { name := some ("Consulting"), quantity := some (.num 1), unit_price := some (.num 1000) }

def c2CounterInput : GenInput :=
  { invoice_type := "simplified", invoice_number := "INV-AR-001",
    issue_date := "2024-01-15",
    seller_name := String.mk (List.replicate 200 (Char.ofNat 0x634)),
    seller_vat := "300000000000003", seller_address := "123 King Fahd Road",
    seller_city := "Riyadh", buyer_name := "Test Customer",
    items := [exampleGenItem] }

set_option maxRecDepth 8000 in
/-- C2 (counterexample): an input that passes every validation of
`generate_invoice` on which the run ends in the uncaught `ValueError`
from `encode_tlv`, not in a `TypeError` from the `build_invoice_xml`
call. -/
theorem c2_value_error_counterexample :
    genValidate c2CounterInput = none ∧
    generate_invoice c2CounterInput = GenResult.pyValueError ∧
    generate_invoice c2CounterInput ≠ GenResult.typeError := by
  refine ⟨by decide, by decide, by decide⟩

/-- C2 (amended): `generate_invoice` passes the keywords
`billing_reference_id`, `billing_reference_date` and `instruction_note`,
none of which `build_invoice_xml` accepts, so on every input that passes
its validations and whose QR encoding succeeds the build call raises
`TypeError`; on no input does `generate_invoice` return an invoice XML
document. -/
theorem c2_build_call_type_error :
    (∀ inp : GenInput, genValidate inp = none →
      (encode_tlv (qrFieldsOf inp)).isOk = true →
      generate_invoice inp = GenResult.typeError) ∧
    (∀ inp : GenInput, ∀ d : InvoiceDoc,
      generate_invoice inp ≠ GenResult.xml d) ∧
    buildCallBindsOk = false := by
  refine ⟨?_, ?_, by decide⟩
  · intro inp h1 h2
    cases henc : encode_tlv (qrFieldsOf inp) with
    | error e =>
      rw [henc] at h2
      simp [Except.isOk, Except.toBool] at h2
    | ok qr =>
      simp only [generate_invoice, h1, henc]
      rw [if_neg (by decide : ¬ buildCallBindsOk = true)]
  · intro inp d
    cases hgv : genValidate inp with
    | some e => simp [generate_invoice, hgv]
    | none =>
      cases henc : encode_tlv (qrFieldsOf inp) with
      | error e => simp [generate_invoice, hgv, henc]
      | ok qr =>
        simp only [generate_invoice, hgv, henc]
        rw [if_neg (by decide : ¬ buildCallBindsOk = true)]
        simp

/-- A plain ASCII valid input for the witness. -/
def exampleGenInput : GenInput :=
  { invoice_type := "simplified", invoice_number := "INV-TEST-001",
    issue_date := "2024-01-15", seller_name := "Fikrah Tech",
    seller_vat := "300000000000003", seller_address := "123 King Fahd Road",
    seller_city := "Riyadh", buyer_name := "Test Customer",
    items := [exampleGenItem] }

theorem c2_build_call_type_error_witness :
    genValidate exampleGenInput = none ∧
    (encode_tlv (qrFieldsOf exampleGenInput)).isOk = true ∧
    generate_invoice exampleGenInput = GenResult.typeError :=
  ⟨by decide, by decide,
   c2_build_call_type_error.1 exampleGenInput (by decide) (by decide)⟩
